import Mathlib

/-
  Verification development for the fortiosapi module
  (src/fortiosapi/fortiosapi.py, class FortiOSAPI).

  The module is embedded shallowly: the mutable `FortiOSAPI` instance state
  becomes the `Session` structure, the HTTP transport and the appliance
  become the `Env` structure (one function per external channel), and each
  Python method becomes a Lean function over `Session`/`Env` returning
  `Except PyErr _` (a raised Python exception is an `Except.error`).
-/

namespace Fortios

/-- JSON-like values exchanged with the API.  The module's control flow only
distinguishes mappings (`isinstance(node, dict)`) from everything else, so
scalars are collapsed into `str`.  Mappings are ordered association lists,
mirroring Python dicts. -/
inductive Val where
  | str (s : String) : Val
  | dict (d : List (String × Val)) : Val

/-- Python truthiness for the values above: empty string and empty dict are
falsy (`if not mkey:` and similar tests in the source). -/
def isTruthy : Val → Bool
  | .str s => !(s == "")
  | .dict d => !d.isEmpty

/-- Truthiness of an optional argument (`None` is falsy).  Returns the value
exactly when it is truthy. -/
def truthyVal : Option Val → Option Val
  | some m => if isTruthy m then some m else none
  | none => none

/-- Python `str()` of a value used as an mkey (strings render as themselves;
the module only ever passes strings or numbers rendered as strings). -/
def pyStr : Val → String
  | .str s => s
  | .dict _ => "\x7bdict\x7d"

/-- First-match lookup in an ordered association list (`d[k]` read access,
with `none` for a `KeyError`). -/
def getKey {α : Type} : List (String × α) → String → Option α
  | [], _ => none
  | p :: rest, k => if p.1 = k then some p.2 else getKey rest k

/-- Python `d[k] = v`: replace the value at the first occurrence of `k`
keeping its position, or append a fresh entry (insertion order semantics of
Python dicts). -/
def setKey {α : Type} : List (String × α) → String → α → List (String × α)
  | [], k, v => [(k, v)]
  | p :: rest, k, v => if p.1 = k then (k, v) :: rest else p :: setKey rest k v

/-- Python `del d[k]` on a key known to be present: drop the entry. -/
def delKey {α : Type} : List (String × α) → String → List (String × α)
  | [], _ => []
  | p :: rest, k => if p.1 = k then rest else p :: delKey rest k

/-- Whether a key is present (`k in d`). -/
def hasKey {α : Type} (d : List (String × α)) (k : String) : Bool :=
  d.any (fun p => p.1 == k)

/-- Apply a function to the value stored at a key (in-place mutation of a
nested dict). -/
def updKey {α : Type} (d : List (String × α)) (k : String) (f : α → α) :
    List (String × α) :=
  d.map (fun p => if p.1 = k then (p.1, f p.2) else p)

/-- Hex digit for percent-encoding (uppercase, as urllib produces). -/
def hexDigitChar (n : Nat) : Char :=
  if n < 10 then Char.ofNat (48 + n) else Char.ofNat (55 + n)

/-- Characters urllib.parse.quote never escapes. -/
def isUnreservedChar (c : Char) : Bool :=
  c.isAlphanum || c == '-' || c == '.' || c == '_' || c == '~'

/-- UTF-8 bytes of a character, for percent-encoding. -/
def utf8Bytes (c : Char) : List Nat :=
  let n := c.toNat
  if n < 0x80 then [n]
  else if n < 0x800 then [0xC0 + n / 0x40, 0x80 + n % 0x40]
  else if n < 0x10000 then
    [0xE0 + n / 0x1000, 0x80 + (n / 0x40) % 0x40, 0x80 + n % 0x40]
  else
    [0xF0 + n / 0x40000, 0x80 + (n / 0x1000) % 0x40,
     0x80 + (n / 0x40) % 0x40, 0x80 + n % 0x40]

/-- Percent-encode one byte. -/
def percentEnc (b : Nat) : String :=
  String.mk ['%', hexDigitChar (b / 16), hexDigitChar (b % 16)]

/-- urllib.parse.quote(s, safe=""): percent-escape with no characters
treated as safe beyond the unreserved set. -/
def quoteNoSafe (s : String) : String :=
  s.data.foldl
    (fun acc c =>
      if isUnreservedChar c then acc.push c
      else (utf8Bytes c).foldl (fun a b => a ++ percentEnc b) acc) ""

/-- A cookie in the requests session's jar (name/value pair). -/
structure Cookie where
  name : String
  value : String

/-- The mutable state of a `FortiOSAPI` instance together with the pieces of
the underlying requests session the module reads and writes
(`FortiOSAPI.__init__`).  `url_root` embeds the source's URL-base attribute
(whose Python name is reserved here); `fortiversion` is kept as a `Val`
because it is assigned straight from a decoded response field. -/
structure Session where
  host : Option String
  https : Bool
  logged : Bool
  fortiversion : Val
  verify : Bool
  cert : Option String
  timeout : Nat
  apitoken : Option String
  license : Option String
  url_root : Option String
  headers : List (String × String)
  cookies : List Cookie

/-- The session as built by `FortiOSAPI.__init__`. -/
def initSession : Session :=
  { host := none
    https := true
    logged := false
    fortiversion := Val.str "Version is set when logged"
    verify := true
    cert := none
    timeout := 120
    apitoken := none
    license := none
    url_root := none
    headers := []
    cookies := [] }

/-- Python exceptions the embedded methods can raise. -/
inductive PyErr where
  | notLogged
  | invalidLicense
  | exn (msg : String)
  | typeErrorE
  | keyErrorE
  deriving DecidableEq

/-- A decoded wire envelope: per the API contract it always carries
`http_status` and `status`; every other payload field (such as `version`)
lives in `extra`. -/
structure Resp where
  http_status : Int
  status : String
  extra : List (String × Val)

/-- What `formatresponse` hands back: the decoded envelope, or — when the
body cannot be decoded — the raw (unsubscriptable) response object. -/
inductive FmtResult where
  | decoded (r : Resp) : FmtResult
  | raw : FmtResult

/-- The `parameters=` argument of the request helpers: absent, a raw string
(as `login` builds for its license probe), or a mapping (as `move` builds). -/
inductive ReqParams where
  | none_ : ReqParams
  | rawStr (s : String) : ReqParams
  | dict (l : List (String × String)) : ReqParams

/-- Body sent by `post`: a plain value, or — in the corner where the schema
has no mkey so `data[mkeyname]` assigns under the Python value `False` —
a dict extended with a boolean key. -/
inductive PostBody where
  | val (v : Val) : PostBody
  | falseKeyed (d : List (String × Val)) (m : Val) : PostBody

/-- The external world: one function per transport channel.  Each returns
`some` decoded envelope, or `none` when the body is undecodable (the
`except` branch of `formatresponse`).  `schemaMkey` models the optional
`mkey` attribute of the schema the appliance returns for an object type
(a field-name string when present, per the API contract). -/
structure Env where
  getResp : String → ReqParams → Option Resp
  putResp : String → ReqParams → Val → Option Resp
  postResp : String → ReqParams → PostBody → Option Resp
  moveResp : String → List (String × String) → Option Resp
  schemaMkey : String → String → Option String → Option String
  loginBodyFirstCharOne : Bool
  loginCookies : List Cookie

/-- FortiOSAPI.check_session: NotLogged when not authenticated, then
InvalidLicense when the recorded license state is "Invalid". -/
def check_session (s : Session) : Except PyErr Unit :=
  if !s.logged then .error .notLogged
  else if s.license = some "Invalid" then .error .invalidLicense
  else .ok ()

/-- The global-scope tagging `formatresponse` performs
(`resp["vdom"] = "global"`). -/
def tagVdom (vdom : Option String) (r : Resp) : Resp :=
  if vdom = some "global" then
    { r with extra := setKey r.extra "vdom" (Val.str "global") }
  else r

/-- FortiOSAPI.formatresponse: raises on a recorded invalid license before
touching the body; otherwise decodes (unwrapping/tagging for global scope)
or, when decoding fails, returns the raw response object unchanged. -/
def formatresponse (license : Option String) (body : Option Resp)
    (vdom : Option String) : Except PyErr FmtResult :=
  if license = some "Invalid" then .error (.exn "invalid license")
  else
    match body with
    | some r => .ok (.decoded (tagVdom vdom r))
    | none => .ok .raw

/-- Whether a cookie is a CSRF-token cookie
(`cookie.name == "ccsrftoken" or cookie.name.startswith("ccsrftoken_")`). -/
def isCsrfCookie (c : Cookie) : Bool :=
  c.name == "ccsrftoken" || c.name.startsWith "ccsrftoken_"

/-- `cookie.value[1:-1]`: the value with its first and last characters
removed. -/
def stripEnds (v : String) : String :=
  (v.drop 1).dropRight 1

/-- One iteration of update_cookie's loop over the jar. -/
def csrfStep (hs : List (String × String)) (c : Cookie) :
    List (String × String) :=
  if isCsrfCookie c then setKey hs "X-CSRFTOKEN" (stripEnds c.value) else hs

/-- FortiOSAPI.update_cookie: for every CSRF cookie in the jar (in order),
install its stripped value as the session's X-CSRFTOKEN header. -/
def update_cookie (s : Session) : Session :=
  { s with headers := s.cookies.foldl csrfStep s.headers }

/-- The header mapping requests attaches to every request issued on the
session. -/
def requestHeadersSent (s : Session) : List (String × String) :=
  s.headers

/-- The pure part of FortiOSAPI.cmdb_url: prefix, path/name, the optional
percent-escaped mkey segment, and the vdom/global query suffix. -/
def cmdb_url_str (s : Session) (path name : String) (vdom : Option String)
    (mkey : Option Val) : String :=
  let base := "/api/v2/cmdb/" ++ path ++ "/" ++ name
  let withKey :=
    match mkey with
    | some m => if isTruthy m then base ++ "/" ++ quoteNoSafe (pyStr m) else base
    | none => base
  let withV :=
    match vdom with
    | some v =>
        if v = "" then withKey
        else if v = "global" then withKey ++ "?global=1"
        else withKey ++ "?vdom=" ++ v
    | none => withKey
  s.url_root.getD "" ++ withV

/-- FortiOSAPI.cmdb_url: check_session, then build the URL. -/
def cmdb_url (s : Session) (path name : String) (vdom : Option String)
    (mkey : Option Val) : Except PyErr String := do
  let _ ← check_session s
  .ok (cmdb_url_str s path name vdom mkey)

/-- The pure part of FortiOSAPI.mon_url (monitor surface). -/
def mon_url_str (s : Session) (path name : String) (vdom : Option String)
    (mkey : Option Val) : String :=
  let base := "/api/v2/monitor/" ++ path ++ "/" ++ name
  let withKey :=
    match mkey with
    | some m => if isTruthy m then base ++ "/" ++ quoteNoSafe (pyStr m) else base
    | none => base
  let withV :=
    match vdom with
    | some v =>
        if v = "" then withKey
        else if v = "global" then withKey ++ "?global=1"
        else withKey ++ "?vdom=" ++ v
    | none => withKey
  s.url_root.getD "" ++ withV

/-- FortiOSAPI.mon_url: check_session, then build the URL. -/
def mon_url (s : Session) (path name : String) (vdom : Option String)
    (mkey : Option Val) : Except PyErr String := do
  let _ ← check_session s
  .ok (mon_url_str s path name vdom mkey)

/-- FortiOSAPI.get: GET on the cmdb surface, normalized. -/
def get (s : Session) (env : Env) (path name : String) (vdom : Option String)
    (mkey : Option Val) (parameters : ReqParams) : Except PyErr FmtResult := do
  let url ← cmdb_url s path name vdom mkey
  formatresponse s.license (env.getResp url parameters) vdom

/-- FortiOSAPI.monitor: GET on the monitoring surface, normalized. -/
def monitor (s : Session) (env : Env) (path name : String)
    (vdom : Option String) (mkey : Option Val) (parameters : ReqParams) :
    Except PyErr FmtResult := do
  let url ← mon_url s path name vdom mkey
  formatresponse s.license (env.getResp url parameters) vdom

/-- The URL FortiOSAPI.schema requests (`?action=schema` when no vdom was
given, `&action=schema` appended to the vdom query otherwise). -/
def schema_url (s : Session) (path name : String) (vdom : Option String) :
    Except PyErr String :=
  match vdom with
  | none => (cmdb_url s path name none none).map (fun u => u ++ "?action=schema")
  | some v =>
      (cmdb_url s path name (some v) none).map (fun u => u ++ "&action=schema")

/-- FortiOSAPI.get_mkeyname: fetch the schema and read its `mkey` attribute;
a schema without one (`KeyError`) yields the absence signal `none` (the
source returns `False` after logging a warning). -/
def get_mkeyname (s : Session) (env : Env) (path name : String)
    (vdom : Option String) : Except PyErr (Option String) := do
  let _ ← schema_url s path name vdom
  .ok (env.schemaMkey path name vdom)

/-- FortiOSAPI.get_mkey: resolve the key name, then look it up in the
caller's data; a falsy key name or a key missing from the data
(`KeyError`) yields `none`.  Subscripting a non-mapping payload is the
uncaught `TypeError` of `data[keyname]`. -/
def get_mkey (s : Session) (env : Env) (path name : String) (data : Val)
    (vdom : Option String) : Except PyErr (Option Val) := do
  let keyname ← get_mkeyname s env path name vdom
  match keyname with
  | none => .ok none
  | some k =>
      if k = "" then .ok none
      else
        match data with
        | .dict d => .ok (getKey d k)
        | .str _ => .error .typeErrorE

/-- FortiOSAPI.post: with a truthy explicit mkey, resolve the schema key
name and assign the mkey into the outgoing data (`data[mkeyname] = mkey`,
falling onto a Python `False` dict key when the schema has none); the URL
is always built with `mkey=None` (collection path). -/
def post (s : Session) (env : Env) (path name : String) (data : Val)
    (vdom : Option String) (mkey : Option Val) (parameters : ReqParams) :
    Except PyErr FmtResult := do
  let body ←
    match truthyVal mkey with
    | some m => do
        let mkeyname ← get_mkeyname s env path name vdom
        match data with
        | .dict d =>
            match mkeyname with
            | some kname => pure (PostBody.val (Val.dict (setKey d kname m)))
            | none => pure (PostBody.falseKeyed d m)
        | .str _ => .error .typeErrorE
    | none => pure (PostBody.val data)
  let url ← cmdb_url s path name vdom none
  formatresponse s.license (env.postResp url parameters body) vdom

/-- The shared first step of FortiOSAPI.put and FortiOSAPI.set
(`if not mkey: mkey = self.get_mkey(path, name, data, vdom=vdom)`): an
explicit truthy mkey wins, otherwise schema/payload lookup. -/
def resolve_mkey_arg (s : Session) (env : Env) (path name : String)
    (data : Val) (mkey : Option Val) (vdom : Option String) :
    Except PyErr (Option Val) :=
  match truthyVal mkey with
  | some m => .ok (some m)
  | none => get_mkey s env path name data vdom

/-- FortiOSAPI.put: resolve the mkey if not supplied, PUT against the item
path, normalize. -/
def put (s : Session) (env : Env) (path name : String) (vdom : Option String)
    (mkey : Option Val) (parameters : ReqParams) (data : Val) :
    Except PyErr FmtResult := do
  let mk ← resolve_mkey_arg s env path name data mkey vdom
  let url ← cmdb_url s path name vdom mk
  formatresponse s.license (env.putResp url parameters data) vdom

/-- FortiOSAPI.move: build the URL first (check_session may raise before
any mutation), then write `action=move` and the directional entry into the
parameters dict.  When the caller omits `parameters`, the function's shared
mutable default dict `movedflt` is used and the mutated dict becomes the new
shared default, which the second component returns. -/
def move (s : Session) (env : Env) (path name : String) (vdom : Option String)
    (mkey : Option Val) (whereKey reference_key : String)
    (parameters : Option (List (String × String)))
    (movedflt : List (String × String)) :
    Except PyErr FmtResult × List (String × String) :=
  match cmdb_url s path name vdom mkey with
  | .error e => (.error e, movedflt)
  | .ok url =>
      let pdict := parameters.getD movedflt
      let sent := setKey (setKey pdict "action" "move") whereKey reference_key
      let newDflt := if parameters.isSome then movedflt else sent
      (formatresponse s.license (env.moveResp url sent) vdom, newDflt)

/-- FortiOSAPI.set: resolve the identity (explicit argument wins), PUT the
data against the item path, and on http_status 404/405/500 retry as a POST
with the same resolved mkey and data.  The source then feeds the POST's
already-formatted result through `formatresponse` once more, which only
re-checks the license and returns the value unchanged (its decode attempt
fails and the bare `except` hands the input back).  Reading
`r["http_status"]` off an undecodable raw response is the uncaught
`TypeError` of subscripting a response object. -/
def set (s : Session) (env : Env) (path name : String) (data : Val)
    (mkey : Option Val) (vdom : Option String) (parameters : ReqParams) :
    Except PyErr FmtResult := do
  let mk ← resolve_mkey_arg s env path name data mkey vdom
  let url ← cmdb_url s path name vdom mk
  let r ← formatresponse s.license (env.putResp url parameters data) vdom
  match r with
  | .raw => .error .typeErrorE
  | .decoded rd =>
      if rd.http_status = 404 ∨ rd.http_status = 405 ∨ rd.http_status = 500 then do
        let res ← post s env path name data vdom mk .none_
        if s.license = some "Invalid" then .error (.exn "invalid license")
        else .ok res
      else .ok (.decoded rd)

/-- The state mutations FortiOSAPI.tokenlogin performs before its probe:
host, bearer Authorization header, logged flag, URL base, TLS and timeout
settings. -/
def tokenloginPre (s : Session) (host apitoken : String) (verify : Bool)
    (cert : Option String) (timeout : Nat) : Session :=
  { s with
    host := some host
    headers := setKey s.headers "Authorization" ("Bearer " ++ apitoken)
    logged := true
    url_root := some ((if s.https then "https://" else "http://") ++ host)
    verify := verify
    cert := if cert.isSome then cert else s.cert
    timeout := timeout }

/-- FortiOSAPI.tokenlogin: mutate the session (bearer header, logged flag)
without a server round trip, then probe system/status for the version.
`resp_lic["version"]` on a raw response object is a `TypeError`, which the
source catches and converts to NotLogged; on a decoded mapping without a
`version` field it is a `KeyError`, which nothing catches.  The first
component is the session as left behind (mutations persist even when the
probe fails). -/
def tokenlogin (env : Env) (s : Session) (host apitoken : String)
    (verify : Bool) (cert : Option String) (timeout : Nat)
    (vdom : Option String) : Session × Except PyErr Bool :=
  let s1 := tokenloginPre s host apitoken verify cert timeout
  match get s1 env "system" "status" vdom none .none_ with
  | .error e => (s1, .error e)
  | .ok .raw => (s1, .error .notLogged)
  | .ok (.decoded r) =>
      match getKey r.extra "version" with
      | some v => ({ s1 with fortiversion := v }, .ok true)
      | none => (s1, .error .keyErrorE)

/-- The state mutations FortiOSAPI.login performs before posting the
credentials. -/
def loginPre (s : Session) (host : String) (verify : Bool)
    (cert : Option String) (timeout : Nat) : Session :=
  { s with
    host := some host
    url_root := some ((if s.https then "https://" else "http://") ++ host)
    verify := verify
    cert := if cert.isSome then cert else s.cert
    timeout := timeout }

/-- FortiOSAPI.login: post the credentials (the transport stores the
logincheck cookies; `env.loginBodyFirstCharOne` is whether the body's first
character is "1"), install the CSRF header, mark logged, then probe
license/status.  A raw probe result goes through `resp_lic.json()`, which
raises on the undecodable body; a decoded result yields the version, or —
on `KeyError` — falls back to the `status` field to decide between staying
logged and NotLogged. -/
def login (env : Env) (s : Session) (host _username _password : String)
    (verify : Bool) (cert : Option String) (timeout : Nat) (vdom : String) :
    Session × Except PyErr Bool :=
  let s1 := loginPre s host verify cert timeout
  let s2 := { s1 with cookies := env.loginCookies }
  if env.loginBodyFirstCharOne then
    let s3 := { update_cookie s2 with logged := true }
    let param := "\x7b vdom = " ++ vdom ++ " \x7d"
    match monitor s3 env "license" "status" none none (.rawStr param) with
    | .error e => (s3, .error e)
    | .ok .raw => (s3, .error (.exn "jsondecode"))
    | .ok (.decoded r) =>
        match getKey r.extra "version" with
        | some v => ({ s3 with fortiversion := v }, .ok true)
        | none =>
            if r.status = "success" then (s3, .ok true)
            else ({ s3 with logged := false }, .error .notLogged)
  else ({ s2 with logged := false }, .error .notLogged)

/-- FortiOSAPI.logout: drop the authenticated flag, clear the cookie jar,
and reset the license state to "Valid" so the next login re-evaluates it. -/
def logout (s : Session) : Session :=
  { s with logged := false, cookies := [], license := some "Valid" }

/-- FortiOSAPI.https: switch the scheme flag. -/
def httpsOp (status : String) (s : Session) : Session :=
  let s1 := if status = "on" then { s with https := true } else s
  if status = "off" then { s1 with https := false } else s1

/-- Field mapping of one (name, path) entry of a configuration tree. -/
abbrev Fields := List (String × Val)

/-- The paths of one object-type name. -/
abbrev PathMap := List (String × Fields)

/-- The three-level configuration tree setoverlayconfig takes:
name → path → field/table mapping. -/
abbrev Tree := List (String × PathMap)

/-- Delete field `k` from `t[name][path]` (it is present, having been read
from the iteration copy). -/
def treeDelField (t : Tree) (name path k : String) : Tree :=
  updKey t name (fun pm => updKey pm path (fun fs => delKey fs k))

/-- Python `del t[name][path]`: `none` is the `KeyError` raised when the
path entry was already deleted. -/
def treeDelPath (t : Tree) (name path : String) : Option Tree :=
  match getKey t name with
  | none => none
  | some pm =>
      if hasKey pm path then some (updKey t name (fun pm2 => delKey pm2 path))
      else none

/-- The inner field loop of setoverlayconfig's splitting phase: a dict
field is deleted from the scalar working tree; any other field deletes the
*whole path entry* from the table working tree (`del yamltreel3[name][path]`),
raising `KeyError` the second time. -/
def partitionFields (name path : String) :
    List (String × Val) → Tree × Tree → Except PyErr (Tree × Tree)
  | [], st => .ok st
  | (k, node) :: rest, (tScalar, tTable) =>
      match node with
      | .dict _ =>
          partitionFields name path rest (treeDelField tScalar name path k, tTable)
      | .str _ =>
          match treeDelPath tTable name path with
          | some t2 => partitionFields name path rest (tScalar, t2)
          | none => .error .keyErrorE

/-- Splitting phase, path loop. -/
def partitionPaths (name : String) :
    PathMap → Tree × Tree → Except PyErr (Tree × Tree)
  | [], st => .ok st
  | (path, fields) :: rest, st => do
      let st1 ← partitionFields name path fields st
      partitionPaths name rest st1

/-- Splitting phase, name loop. -/
def partitionNames : Tree → Tree × Tree → Except PyErr (Tree × Tree)
  | [], st => .ok st
  | (name, pm) :: rest, st => do
      let st1 ← partitionPaths name pm st
      partitionNames rest st1

/-- setoverlayconfig's splitting phase: iterate the original tree, mutating
the scalar working tree (the argument itself) and the table working tree
(its deep copy) as the source does in place. -/
def partitionTree (t : Tree) : Except PyErr (Tree × Tree) :=
  partitionNames t (t, t)

/-- One `self.set(...)` invocation setoverlayconfig makes, with the
arguments it passes. -/
structure SetCall where
  name : String
  path : String
  data : Val
  mkey : Option Val
  vdom : Option String

/-- The result of one such invocation (setoverlayconfig passes no
parameters). -/
def setOutcome (s : Session) (env : Env) (c : SetCall) :
    Except PyErr FmtResult :=
  set s env c.name c.path c.data c.mkey c.vdom .none_

/-- `res["status"]` as the loops read it: `TypeError` on a raw response. -/
def resStatus : FmtResult → Except PyErr String
  | .raw => .error .typeErrorE
  | .decoded r => .ok r.status

/-- First (scalar) pass, inner path loop: skip empty field mappings
(`if yamltree[name][path]:`), call set with no mkey forced, set the
accumulator from the status, and on non-success break out of this name's
remaining paths.  Returns the accumulator and the calls made, in order. -/
def applyScalarPaths (s : Session) (env : Env) (vdom : Option String)
    (name : String) :
    PathMap → Bool → Except PyErr (Bool × List SetCall)
  | [], restree => .ok (restree, [])
  | (path, fields) :: rest, restree =>
      if fields.isEmpty then applyScalarPaths s env vdom name rest restree
      else do
        let c : SetCall := ⟨name, path, Val.dict fields, none, vdom⟩
        let res ← setOutcome s env c
        let st ← resStatus res
        if st = "success" then do
          let br ← applyScalarPaths s env vdom name rest true
          .ok (br.1, c :: br.2)
        else .ok (false, [c])

/-- First pass, name loop (a break in a name's path loop does not stop the
following names). -/
def applyScalarTree (s : Session) (env : Env) (vdom : Option String) :
    Tree → Bool → Except PyErr (Bool × List SetCall)
  | [], b => .ok (b, [])
  | (name, pm) :: rest, b => do
      let br1 ← applyScalarPaths s env vdom name pm b
      let br2 ← applyScalarTree s env vdom rest br1.1
      .ok (br2.1, br1.2 ++ br2.2)

/-- Second (table) pass, inner row loop: each row keyed by its own identity
is set with that key forced; non-success breaks out of this path's
remaining rows only. -/
def applyTableRows (s : Session) (env : Env) (vdom : Option String)
    (name path : String) :
    Fields → Bool → Except PyErr (Bool × List SetCall)
  | [], b => .ok (b, [])
  | (k, node) :: rest, _b => do
      let c : SetCall := ⟨name, path, node, some (Val.str k), vdom⟩
      let res ← setOutcome s env c
      let st ← resStatus res
      if st = "success" then do
        let br ← applyTableRows s env vdom name path rest true
        .ok (br.1, c :: br.2)
      else .ok (false, [c])

/-- Second pass, path loop (a row break does not stop later paths). -/
def applyTablePaths (s : Session) (env : Env) (vdom : Option String)
    (name : String) :
    PathMap → Bool → Except PyErr (Bool × List SetCall)
  | [], b => .ok (b, [])
  | (path, rows) :: rest, b => do
      let br1 ← applyTableRows s env vdom name path rows b
      let br2 ← applyTablePaths s env vdom name rest br1.1
      .ok (br2.1, br1.2 ++ br2.2)

/-- Second pass, name loop. -/
def applyTableTree (s : Session) (env : Env) (vdom : Option String) :
    Tree → Bool → Except PyErr (Bool × List SetCall)
  | [], b => .ok (b, [])
  | (name, pm) :: rest, b => do
      let br1 ← applyTablePaths s env vdom name pm b
      let br2 ← applyTableTree s env vdom rest br1.1
      .ok (br2.1, br1.2 ++ br2.2)

/-- FortiOSAPI.setoverlayconfig: split the tree, apply the scalar tree
first (no identity forced), then the table tree (row keys forced), and
return the final accumulator.  Instrumented to also return the ordered
list of set invocations made. -/
def setoverlayconfig (s : Session) (env : Env) (yamltree : Tree)
    (vdom : Option String) : Except PyErr (Bool × List SetCall) := do
  let tt ← partitionTree yamltree
  let br1 ← applyScalarTree s env vdom tt.1 false
  let br2 ← applyTableTree s env vdom tt.2 br1.1
  .ok (br2.1, br1.2 ++ br2.2)

/-- The status string one set invocation yields, when it returns a decoded
result (`none` when it raises or returns a raw response). -/
def statusOf (s : Session) (env : Env) (c : SetCall) : Option String :=
  match setOutcome s env c with
  | .ok (.decoded r) => some r.status
  | _ => none

/-- Whether one set invocation reports success. -/
def callOk (s : Session) (env : Env) (c : SetCall) : Bool :=
  statusOf s env c == some "success"

/-- Fold the success accumulator over a trace: each call overwrites it with
its own success, so the result is the last call's success (or the initial
value for an empty trace). -/
def lastOk (s : Session) (env : Env) : Bool → List SetCall → Bool
  | b, [] => b
  | _, c :: tr => lastOk s env (callOk s env c) tr

/-- The calls the scalar pass makes for one name: the nonempty paths up to
and including the first non-success. -/
def scalarPathCalls (s : Session) (env : Env) (vdom : Option String)
    (name : String) : PathMap → List SetCall
  | [] => []
  | (path, fields) :: rest =>
      if fields.isEmpty then scalarPathCalls s env vdom name rest
      else
        let c : SetCall := ⟨name, path, Val.dict fields, none, vdom⟩
        if callOk s env c then c :: scalarPathCalls s env vdom name rest
        else [c]

/-- All calls of the scalar pass: every name contributes independently. -/
def scalarCalls (s : Session) (env : Env) (vdom : Option String)
    (t : Tree) : List SetCall :=
  t.flatMap (fun np => scalarPathCalls s env vdom np.1 np.2)

/-- The calls the table pass makes for one path: its rows up to and
including the first non-success. -/
def tableRowCalls (s : Session) (env : Env) (vdom : Option String)
    (name path : String) : Fields → List SetCall
  | [] => []
  | (k, node) :: rest =>
      let c : SetCall := ⟨name, path, node, some (Val.str k), vdom⟩
      if callOk s env c then c :: tableRowCalls s env vdom name path rest
      else [c]

/-- All calls of the table pass: every (name, path) contributes
independently of failures in other paths. -/
def tableCalls (s : Session) (env : Env) (vdom : Option String)
    (t : Tree) : List SetCall :=
  t.flatMap (fun np => np.2.flatMap (fun pr => tableRowCalls s env vdom np.1 pr.1 pr.2))

/-- One mutation of the instance state by a module operation.  CRUD
operations leave the instance fields alone; the transport constructor
stands for the cookie-jar updates any request's response may cause. -/
inductive Step : Session → Session → Prop where
  | httpsStep (st : String) (s : Session) : Step s (httpsOp st s)
  | cookieStep (s : Session) : Step s (update_cookie s)
  | logoutStep (s : Session) : Step s (logout s)
  | tokenStep (env : Env) (host apitoken : String) (verify : Bool)
      (cert : Option String) (timeout : Nat) (vdom : Option String)
      (s : Session) :
      Step s (tokenlogin env s host apitoken verify cert timeout vdom).1
  | loginStep (env : Env) (host username password : String) (verify : Bool)
      (cert : Option String) (timeout : Nat) (vdom : String) (s : Session) :
      Step s (login env s host username password verify cert timeout vdom).1
  | transportStep (jar : List Cookie) (s : Session) :
      Step s { s with cookies := jar }

/-- The session states reachable through this module's operations alone,
starting from construction. -/
inductive Reachable : Session → Prop where
  | init : Reachable initSession
  | step {s s2 : Session} : Reachable s → Step s s2 → Reachable s2

/-- A logged-in session with a clean license state, as left behind by a
successful login (used by concrete witnesses). -/
def demoSession : Session :=
  { initSession with logged := true, url_root := some "https://fgt" }

/-- The demo session with the license recorded as Invalid. -/
def invalidSession : Session :=
  { demoSession with license := some "Invalid" }

/-- An appliance that always answers a decoded success envelope and whose
schemas expose no mkey. -/
def envAllSuccess : Env :=
  { getResp := fun _ _ => some ⟨200, "success", []⟩
    putResp := fun _ _ _ => some ⟨200, "success", []⟩
    postResp := fun _ _ _ => some ⟨200, "success", []⟩
    moveResp := fun _ _ => some ⟨200, "success", []⟩
    schemaMkey := fun _ _ _ => none
    loginBodyFirstCharOne := true
    loginCookies := [] }

/-- An appliance whose update attempts answer 404 and whose creates
succeed, with a `name` identity key in every schema. -/
def envPutFails : Env :=
  { envAllSuccess with
    putResp := fun _ _ _ => some ⟨404, "error", []⟩
    schemaMkey := fun _ _ _ => some "name" }

/-- An appliance whose responses never decode (raw passthrough
everywhere). -/
def envRawBody : Env :=
  { envAllSuccess with
    getResp := fun _ _ => none
    putResp := fun _ _ _ => none
    postResp := fun _ _ _ => none
    moveResp := fun _ _ => none }

/-- A configuration tree with two scalar fields under one path — the input
on which setoverlayconfig's splitting phase raises `KeyError`. -/
def badOverlayTree : Tree :=
  [("system",
    [("global",
      [("hostname", Val.str "fw1"), ("admintimeout", Val.str "30")])])]

/-- A configuration tree exercising both application passes: one scalar
setting and one table with a single keyed row. -/
def demoTree : Tree :=
  [("system", [("global", [("hostname", Val.str "fw1")])]),
   ("firewall",
    [("policy", [("1", Val.dict [("srcintf", Val.str "port1")])])])]

theorem except_bind_error {ε α β : Type} (e : ε) (f : α → Except ε β) :
    (Except.error e >>= f : Except ε β) = Except.error e := rfl

theorem except_bind_ok {ε α β : Type} (a : α) (f : α → Except ε β) :
    (Except.ok a >>= f : Except ε β) = f a := rfl

theorem except_map_error {ε α β : Type} (g : α → β) (e : ε) :
    (Except.map g (Except.error e) : Except ε β) = Except.error e := rfl

theorem except_map_ok {ε α β : Type} (g : α → β) (a : α) :
    (Except.map g (Except.ok a) : Except ε β) = Except.ok (g a) := rfl

theorem getKey_setKey_self {α : Type} (d : List (String × α)) (k : String)
    (v : α) : getKey (setKey d k v) k = some v := by
  induction d with
  | nil => simp [setKey, getKey]
  | cons p rest ih =>
      by_cases h : p.1 = k <;> simp [setKey, getKey, h, ih]

theorem getKey_setKey_other {α : Type} (d : List (String × α))
    (k kq : String) (v : α) (h : kq ≠ k) :
    getKey (setKey d k v) kq = getKey d kq := by
  induction d with
  | nil => simp [setKey, getKey, Ne.symm h]
  | cons p rest ih =>
      by_cases hp : p.1 = k
      · have hpq : p.1 ≠ kq := by rw [hp]; exact Ne.symm h
        simp [setKey, getKey, hp, hpq, Ne.symm h]
      · by_cases hq : p.1 = kq <;> simp [setKey, getKey, hp, hq, h, ih]

theorem truthyVal_eq_some {o : Option Val} {m : Val}
    (h : truthyVal o = some m) : o = some m ∧ isTruthy m = true := by
  cases o with
  | none => simp [truthyVal] at h
  | some v =>
      by_cases hv : isTruthy v
      · simp [truthyVal, hv] at h; subst h; exact ⟨rfl, hv⟩
      · simp [truthyVal, hv] at h

theorem tagVdom_status (vdom : Option String) (r : Resp) :
    (tagVdom vdom r).status = r.status := by
  unfold tagVdom; split <;> rfl

theorem tagVdom_http_status (vdom : Option String) (r : Resp) :
    (tagVdom vdom r).http_status = r.http_status := by
  unfold tagVdom; split <;> rfl

theorem check_session_ok {s : Session} (hlog : s.logged = true)
    (hlic : s.license ≠ some "Invalid") : check_session s = .ok () := by
  simp [check_session, hlog, hlic]

theorem check_session_invalid {s : Session} (hlog : s.logged = true)
    (hlic : s.license = some "Invalid") :
    check_session s = .error .invalidLicense := by
  simp [check_session, hlog, hlic]

/-- C2: setoverlayconfig is claimed to partition the tree per field —
every nested mapping kept only in the table tree, every scalar kept only in
the scalar tree.  The code instead executes `del yamltreel3[name][path]`,
deleting the *whole path entry* from the table tree on each scalar field:
on a path holding two scalar fields the second deletion raises `KeyError`,
so setoverlayconfig crashes instead of partitioning. -/
theorem setoverlayconfig_partition_keyerror (s : Session) (env : Env)
    (vdom : Option String) :
    partitionTree badOverlayTree = .error .keyErrorE
    ∧ setoverlayconfig s env badOverlayTree vdom = .error .keyErrorE := by
  constructor
  · rfl
  · rfl

/-- C5: for every operation that normalizes a server response, a license
state recorded as Invalid makes the operation fail with the InvalidLicense
error (raised by check_session before the request is even built), and
formatresponse itself rejects before looking at any body, so transport
success is irrelevant. -/
theorem invalid_license_rejected_first
    (s : Session) (env : Env) (path name : String) (vdom : Option String)
    (mkey : Option Val) (data : Val) (params : ReqParams)
    (w rk : String) (pOpt : Option (List (String × String)))
    (dflt : List (String × String))
    (hlog : s.logged = true) (hlic : s.license = some "Invalid") :
    get s env path name vdom mkey params = .error .invalidLicense
    ∧ monitor s env path name vdom mkey params = .error .invalidLicense
    ∧ put s env path name vdom mkey params data = .error .invalidLicense
    ∧ post s env path name data vdom mkey params = .error .invalidLicense
    ∧ set s env path name data mkey vdom params = .error .invalidLicense
    ∧ (move s env path name vdom mkey w rk pOpt dflt).1
        = .error .invalidLicense
    ∧ (∀ body v, formatresponse (some "Invalid") body v
        = .error (.exn "invalid license")) := by
  have hcs := check_session_invalid hlog hlic
  refine ⟨?_, ?_, ?_, ?_, ?_, ?_, ?_⟩
  · simp [get, cmdb_url, hcs, except_bind_error, except_bind_ok, except_map_error]
  · simp [monitor, mon_url, hcs, except_bind_error, except_bind_ok, except_map_error]
  · cases htr : truthyVal mkey with
    | some m =>
        simp [put, resolve_mkey_arg, htr, cmdb_url, hcs, except_bind_error, except_bind_ok, except_map_error]
    | none =>
        simp [put, resolve_mkey_arg, htr, get_mkey, get_mkeyname, schema_url,
          cmdb_url, hcs, except_bind_error, except_bind_ok, except_map_error]
        cases vdom <;> simp [hcs, except_bind_error, except_bind_ok, except_map_error]
  · cases htr : truthyVal mkey with
    | some m =>
        simp [post, htr, get_mkeyname, schema_url, cmdb_url, hcs, except_bind_error, except_bind_ok, except_map_error]
        cases vdom <;> simp [hcs, except_bind_error, except_bind_ok, except_map_error]
    | none =>
        simp [post, htr, cmdb_url, hcs, except_bind_error, except_bind_ok, except_map_error]
  · cases htr : truthyVal mkey with
    | some m =>
        simp [set, resolve_mkey_arg, htr, cmdb_url, hcs, except_bind_error, except_bind_ok, except_map_error]
    | none =>
        simp [set, resolve_mkey_arg, htr, get_mkey, get_mkeyname, schema_url,
          cmdb_url, hcs, except_bind_error, except_bind_ok, except_map_error]
        cases vdom <;> simp [hcs, except_bind_error, except_bind_ok, except_map_error]
  · simp [move, cmdb_url, hcs, except_bind_error, except_bind_ok, except_map_error]
  · intro body v
    simp [formatresponse]

/-- Closed instance of the C5 theorem at a concrete invalid-license
session. -/
theorem invalid_license_rejected_first_witness :
    get invalidSession envAllSuccess "firewall" "address" none none .none_
      = .error .invalidLicense
    ∧ monitor invalidSession envAllSuccess "firewall" "address" none none
        .none_ = .error .invalidLicense
    ∧ put invalidSession envAllSuccess "firewall" "address" none none .none_
        (Val.dict []) = .error .invalidLicense
    ∧ post invalidSession envAllSuccess "firewall" "address" (Val.dict [])
        none none .none_ = .error .invalidLicense
    ∧ set invalidSession envAllSuccess "firewall" "address" (Val.dict [])
        none none .none_ = .error .invalidLicense
    ∧ (move invalidSession envAllSuccess "firewall" "address" none none
        "after" "1" none []).1 = .error .invalidLicense
    ∧ (∀ body v, formatresponse (some "Invalid") body v
        = .error (.exn "invalid license")) :=
  invalid_license_rejected_first invalidSession envAllSuccess "firewall"
    "address" none none (Val.dict []) .none_ "after" "1" none [] rfl rfl

/-- C7: identity-resolution absence is a soft none, never an error: a
schema without an mkey attribute makes get_mkeyname return the absence
signal, and get_mkey returns the absence signal when the resolved key field
is missing from the caller's data mapping. -/
theorem mkey_absence_is_soft
    (s : Session) (env : Env) (path name : String) (vdom : Option String)
    (data : List (String × Val)) (k : String)
    (hlog : s.logged = true) (hlic : s.license ≠ some "Invalid") :
    (env.schemaMkey path name vdom = none →
      get_mkeyname s env path name vdom = .ok none)
    ∧ (env.schemaMkey path name vdom = some k → k ≠ "" → getKey data k = none →
      get_mkey s env path name (Val.dict data) vdom = .ok none) := by
  have hcs := check_session_ok hlog hlic
  constructor
  · intro hn
    cases vdom <;>
      simp [get_mkeyname, schema_url, cmdb_url, hcs, hn, except_bind_error,
        except_bind_ok, except_map_error, except_map_ok]
  · intro hk hne hd
    cases vdom <;>
      simp [get_mkey, get_mkeyname, schema_url, cmdb_url, hcs, hk, hne, hd,
        except_bind_error, except_bind_ok, except_map_error, except_map_ok]

/-- Closed instance of the C7 theorem: a schema without mkey and a data
mapping missing the key field both yield the soft absence signal. -/
theorem mkey_absence_is_soft_witness :
    (envAllSuccess.schemaMkey "firewall" "address" none = none →
      get_mkeyname demoSession envAllSuccess "firewall" "address" none
        = .ok none)
    ∧ (envAllSuccess.schemaMkey "firewall" "address" none = some "name" →
      "name" ≠ "" → getKey [("subnet", Val.str "10.0.0.0 255.255.255.0")] "name" = none →
      get_mkey demoSession envAllSuccess "firewall" "address"
        (Val.dict [("subnet", Val.str "10.0.0.0 255.255.255.0")]) none
        = .ok none) :=
  mkey_absence_is_soft demoSession envAllSuccess "firewall" "address" none
    [("subnet", Val.str "10.0.0.0 255.255.255.0")] "name" rfl (by simp [demoSession, initSession])

/-- C8: a create with an explicit truthy identity value injects it into the
outgoing payload under the schema-resolved identity-key field name,
overriding any conflicting entry, and posts to the collection URL (built
with no identity suffix). -/
theorem post_injects_explicit_mkey
    (s : Session) (env : Env) (path name : String)
    (d : List (String × Val)) (m : Val) (vdom : Option String)
    (params : ReqParams) (kname : String)
    (hlog : s.logged = true) (hlic : s.license ≠ some "Invalid")
    (hm : isTruthy m = true)
    (hschema : env.schemaMkey path name vdom = some kname) :
    post s env path name (Val.dict d) vdom (some m) params
      = formatresponse s.license
          (env.postResp (cmdb_url_str s path name vdom none) params
            (PostBody.val (Val.dict (setKey d kname m)))) vdom
    ∧ getKey (setKey d kname m) kname = some m := by
  have hcs := check_session_ok hlog hlic
  constructor
  · cases vdom <;>
      simp [post, truthyVal, hm, get_mkeyname, schema_url, cmdb_url, hcs,
        hschema, except_bind_error, except_bind_ok, except_map_error,
        except_map_ok]
  · exact getKey_setKey_self d kname m

/-- Closed instance of the C8 theorem: the explicit mkey "a1" overrides the
conflicting "name" entry already in the payload and the URL carries no
identity suffix. -/
theorem post_injects_explicit_mkey_witness :
    post demoSession envPutFails "firewall" "address"
      (Val.dict [("name", Val.str "old"), ("subnet", Val.str "10.0.0.0")])
      none (some (Val.str "a1")) .none_
      = formatresponse demoSession.license
          (envPutFails.postResp
            (cmdb_url_str demoSession "firewall" "address" none none) .none_
            (PostBody.val (Val.dict
              (setKey [("name", Val.str "old"), ("subnet", Val.str "10.0.0.0")]
                "name" (Val.str "a1"))))) none
    ∧ getKey
        (setKey [("name", Val.str "old"), ("subnet", Val.str "10.0.0.0")]
          "name" (Val.str "a1")) "name" = some (Val.str "a1") :=
  post_injects_explicit_mkey demoSession envPutFails "firewall" "address"
    [("name", Val.str "old"), ("subnet", Val.str "10.0.0.0")]
    (Val.str "a1") none .none_ "name" rfl
    (by simp [demoSession, initSession]) rfl rfl

/-- C10: move's parameters argument defaults to one shared mutable dict.
Two successive calls that both omit it see the same dict: the second call's
query parameters still contain the first call's directional entry (stale
when the where keys differ) on top of its own, instead of starting from an
empty parameter set. -/
theorem move_shared_default_leaks
    (s : Session) (env : Env) (path name : String) (vdom : Option String)
    (mkey : Option Val) (w1 k1 w2 k2 : String)
    (hlog : s.logged = true) (hlic : s.license ≠ some "Invalid")
    (h1 : w1 ≠ "action") (h2 : w2 ≠ "action") (h12 : w1 ≠ w2) :
    (move s env path name vdom mkey w1 k1 none []).2
      = setKey (setKey [] "action" "move") w1 k1
    ∧ (move s env path name vdom mkey w2 k2 none
        (move s env path name vdom mkey w1 k1 none []).2).2
      = setKey (setKey (setKey (setKey [] "action" "move") w1 k1)
          "action" "move") w2 k2
    ∧ getKey (move s env path name vdom mkey w2 k2 none
        (move s env path name vdom mkey w1 k1 none []).2).2 w1 = some k1
    ∧ getKey (move s env path name vdom mkey w2 k2 none
        (move s env path name vdom mkey w1 k1 none []).2).2 w2 = some k2
    ∧ getKey (move s env path name vdom mkey w2 k2 none
        (move s env path name vdom mkey w1 k1 none []).2).2 "action"
        = some "move"
    ∧ getKey (setKey (setKey [] "action" "move") w2 k2) w1 = none := by
  have hcs := check_session_ok hlog hlic
  have hurl : cmdb_url s path name vdom mkey
      = .ok (cmdb_url_str s path name vdom mkey) := by
    simp [cmdb_url, hcs, except_bind_error, except_bind_ok]
  have hd1 : (move s env path name vdom mkey w1 k1 none []).2
      = setKey (setKey [] "action" "move") w1 k1 := by
    simp [move, hurl]
  have hd2 : (move s env path name vdom mkey w2 k2 none
      (move s env path name vdom mkey w1 k1 none []).2).2
      = setKey (setKey (setKey (setKey [] "action" "move") w1 k1)
          "action" "move") w2 k2 := by
    simp [move, hurl, hd1]
  refine ⟨hd1, hd2, ?_, ?_, ?_, ?_⟩
  · rw [hd2, getKey_setKey_other _ _ _ _ h12,
      getKey_setKey_other _ _ _ _ h1, getKey_setKey_self]
  · rw [hd2, getKey_setKey_self]
  · rw [hd2, getKey_setKey_other _ _ _ _ (Ne.symm h2), getKey_setKey_self]
  · rw [getKey_setKey_other _ _ _ _ h12,
      getKey_setKey_other _ _ _ _ h1]
    rfl

/-- Closed instance of the C10 theorem: a move before "1" followed by a
move after "2", both omitting parameters, leaves the stale before entry in
the second call's query parameters. -/
theorem move_shared_default_leaks_witness :
    (move demoSession envAllSuccess "firewall" "policy" none
      (some (Val.str "5")) "before" "1" none []).2
      = setKey (setKey [] "action" "move") "before" "1"
    ∧ (move demoSession envAllSuccess "firewall" "policy" none
        (some (Val.str "5")) "after" "2" none
        (move demoSession envAllSuccess "firewall" "policy" none
          (some (Val.str "5")) "before" "1" none []).2).2
      = setKey (setKey (setKey (setKey [] "action" "move") "before" "1")
          "action" "move") "after" "2"
    ∧ getKey (move demoSession envAllSuccess "firewall" "policy" none
        (some (Val.str "5")) "after" "2" none
        (move demoSession envAllSuccess "firewall" "policy" none
          (some (Val.str "5")) "before" "1" none []).2).2 "before"
        = some "1"
    ∧ getKey (move demoSession envAllSuccess "firewall" "policy" none
        (some (Val.str "5")) "after" "2" none
        (move demoSession envAllSuccess "firewall" "policy" none
          (some (Val.str "5")) "before" "1" none []).2).2 "after"
        = some "2"
    ∧ getKey (move demoSession envAllSuccess "firewall" "policy" none
        (some (Val.str "5")) "after" "2" none
        (move demoSession envAllSuccess "firewall" "policy" none
          (some (Val.str "5")) "before" "1" none []).2).2 "action"
        = some "move"
    ∧ getKey (setKey (setKey [] "action" "move") "after" "2") "before"
        = none :=
  move_shared_default_leaks demoSession envAllSuccess "firewall" "policy"
    none (some (Val.str "5")) "before" "1" "after" "2" rfl
    (by simp [demoSession, initSession]) (by simp) (by simp) (by simp)

theorem csrf_fold_no_match (cookies : List Cookie)
    (init : List (String × String))
    (h : ∀ c ∈ cookies, isCsrfCookie c = false) :
    cookies.foldl csrfStep init = init := by
  induction cookies generalizing init with
  | nil => rfl
  | cons c rest ih =>
      have hc := h c (List.mem_cons_self c rest)
      rw [List.foldl_cons]
      show rest.foldl csrfStep (csrfStep init c) = init
      rw [csrfStep, hc]
      simp only [Bool.false_eq_true, if_false]
      exact ih init (fun d hd => h d (List.mem_cons_of_mem _ hd))

theorem csrf_fold_match (v : String) (cookies : List Cookie) :
    ∀ init : List (String × String),
    (∃ c ∈ cookies, isCsrfCookie c = true) →
    (∀ c ∈ cookies, isCsrfCookie c = true → c.value = v) →
    getKey (cookies.foldl csrfStep init) "X-CSRFTOKEN"
      = some (stripEnds v) := by
  induction cookies with
  | nil =>
      intro init hex _
      obtain ⟨c, hc, _⟩ := hex
      simp at hc
  | cons c rest ih =>
      intro init hex hval
      cases hc : isCsrfCookie c with
      | true =>
          have hcv : c.value = v := hval c (List.mem_cons_self c rest) hc
          rw [List.foldl_cons]
          show getKey (rest.foldl csrfStep (csrfStep init c)) "X-CSRFTOKEN"
            = some (stripEnds v)
          by_cases hrest : ∃ d ∈ rest, isCsrfCookie d = true
          · exact ih _ hrest
              (fun d hd h2 => hval d (List.mem_cons_of_mem _ hd) h2)
          · have hnone : ∀ d ∈ rest, isCsrfCookie d = false := by
              intro d hd
              cases hh : isCsrfCookie d with
              | false => rfl
              | true => exact absurd ⟨d, hd, hh⟩ hrest
            rw [csrf_fold_no_match rest _ hnone, csrfStep, hc]
            simp only [if_true]
            rw [hcv, getKey_setKey_self]
      | false =>
          obtain ⟨d, hd, hdt⟩ := hex
          rcases List.mem_cons.mp hd with rfl | hdr
          · rw [hc] at hdt; exact absurd hdt (by simp)
          rw [List.foldl_cons]
          show getKey (rest.foldl csrfStep (csrfStep init c)) "X-CSRFTOKEN"
            = some (stripEnds v)
          rw [csrfStep, hc]
          simp only [Bool.false_eq_true, if_false]
          exact ih init ⟨d, hdr, hdt⟩
            (fun e he h2 => hval e (List.mem_cons_of_mem _ he) h2)

/-- C4: after update_cookie runs on a session whose jar holds a CSRF cookie
(name `ccsrftoken` or prefixed `ccsrftoken_`), the session's X-CSRFTOKEN
header is that cookie's value with first and last characters removed, and
the header mapping sent with subsequent requests on the session — including
after further cookie traffic — carries it. -/
theorem csrf_header_installed
    (s : Session) (c : Cookie) (jar2 : List Cookie)
    (hmem : c ∈ s.cookies) (hc : isCsrfCookie c = true)
    (hval : ∀ d ∈ s.cookies, isCsrfCookie d = true → d.value = c.value) :
    getKey (update_cookie s).headers "X-CSRFTOKEN"
      = some (stripEnds c.value)
    ∧ getKey (requestHeadersSent (update_cookie s)) "X-CSRFTOKEN"
        = some (stripEnds c.value)
    ∧ getKey (requestHeadersSent
        { update_cookie s with cookies := jar2 }) "X-CSRFTOKEN"
        = some (stripEnds c.value) := by
  have h1 : getKey (update_cookie s).headers "X-CSRFTOKEN"
      = some (stripEnds c.value) :=
    csrf_fold_match c.value s.cookies s.headers ⟨c, hmem, hc⟩ hval
  exact ⟨h1, h1, h1⟩

/-- Closed instance of the C4 theorem: a quoted token cookie yields the
unquoted header on the session and on subsequent requests. -/
theorem csrf_header_installed_witness :
    getKey (update_cookie { demoSession with
        cookies := [⟨"ccsrftoken", "\"tok123\""⟩] }).headers "X-CSRFTOKEN"
      = some (stripEnds "\"tok123\"")
    ∧ getKey (requestHeadersSent (update_cookie { demoSession with
        cookies := [⟨"ccsrftoken", "\"tok123\""⟩] })) "X-CSRFTOKEN"
        = some (stripEnds "\"tok123\"")
    ∧ getKey (requestHeadersSent
        { update_cookie { demoSession with
            cookies := [⟨"ccsrftoken", "\"tok123\""⟩] } with
          cookies := [] }) "X-CSRFTOKEN"
        = some (stripEnds "\"tok123\"") :=
  csrf_header_installed
    { demoSession with cookies := [⟨"ccsrftoken", "\"tok123\""⟩] }
    ⟨"ccsrftoken", "\"tok123\""⟩ []
    (List.mem_cons_self _ _) rfl
    (fun d hd _ => by rw [List.mem_singleton.mp hd])

theorem httpsOp_license (st : String) (s : Session) :
    (httpsOp st s).license = s.license := by
  unfold httpsOp
  split <;> split <;> rfl

theorem tokenlogin_license (env : Env) (s : Session) (host apitoken : String)
    (verify : Bool) (cert : Option String) (timeout : Nat)
    (vdom : Option String) :
    ((tokenlogin env s host apitoken verify cert timeout vdom).1).license
      = s.license := by
  unfold tokenlogin
  dsimp only []
  repeat' split
  all_goals rfl

theorem login_license (env : Env) (s : Session)
    (host username password : String) (verify : Bool) (cert : Option String)
    (timeout : Nat) (vdom : String) :
    ((login env s host username password verify cert timeout vdom).1).license
      = s.license := by
  unfold login
  dsimp only []
  repeat' split
  all_goals rfl

theorem reachable_license_aux {s : Session} (h : Reachable s) :
    s.license = none ∨ s.license = some "Valid" := by
  induction h with
  | init => left; rfl
  | step hr hstep ih =>
      cases hstep with
      | httpsStep st s => rw [httpsOp_license]; exact ih
      | cookieStep s => exact ih
      | logoutStep s => right; rfl
      | tokenStep env host apitoken verify cert timeout vdom s =>
          rw [tokenlogin_license]; exact ih
      | loginStep env host username password verify cert timeout vdom s =>
          rw [login_license]; exact ih
      | transportStep jar s => exact ih

/-- C9: no module operation ever records the license state as Invalid —
it starts as None and logout resets it to Valid — so in every session state
reachable through the module's operations the InvalidLicense branches of
check_session and of the response normalizer cannot fire. -/
theorem license_never_invalid (s : Session) (h : Reachable s) :
    s.license ≠ some "Invalid"
    ∧ check_session s ≠ .error .invalidLicense
    ∧ (∀ body vdom, formatresponse s.license body vdom
        ≠ .error (.exn "invalid license"))
    ∧ initSession.license = none
    ∧ (∀ s2, (logout s2).license = some "Valid") := by
  have hinv := reachable_license_aux h
  have hne : s.license ≠ some "Invalid" := by
    rcases hinv with h0 | h0 <;> rw [h0] <;> simp
  refine ⟨hne, ?_, ?_, rfl, fun s2 => rfl⟩
  · unfold check_session
    cases hl : s.logged with
    | false => simp
    | true => simp [hne]
  · intro body vdom
    unfold formatresponse
    simp only [hne, if_false]
    cases body <;> simp

/-- Closed instance of the C9 theorem at the freshly constructed session. -/
theorem license_never_invalid_witness :
    initSession.license ≠ some "Invalid"
    ∧ check_session initSession ≠ .error .invalidLicense
    ∧ (∀ body vdom, formatresponse initSession.license body vdom
        ≠ .error (.exn "invalid license"))
    ∧ initSession.license = none
    ∧ (∀ s2, (logout s2).license = some "Valid") :=
  license_never_invalid initSession Reachable.init

/-- C6 counterexample: the claim says every probe result from which no
version is obtainable makes tokenlogin fail with NotLoggedIn.  But the
source catches only TypeError: on a *decoded* status payload that simply
lacks a `version` field, `resp_lic["version"]` raises an uncaught KeyError
instead.  Here the probe decodes to a success envelope with no version. -/
theorem tokenlogin_keyerror_counterexample :
    (tokenlogin envAllSuccess initSession "fgt" "tok" true none 12 none).2
      = .error .keyErrorE
    ∧ (tokenlogin envAllSuccess initSession "fgt" "tok" true none 12 none).2
      ≠ .error .notLogged := by
  constructor
  · rfl
  · intro h
    have h2 := Except.error.inj
      (by rw [← h]; rfl : Except.error (α := Bool) PyErr.keyErrorE
        = Except.error PyErr.notLogged)
    exact PyErr.noConfusion h2

/-- C6 as amended: tokenlogin installs the bearer Authorization header and
marks the session authenticated without a server round trip, then probes
system/status; it fails with NotLoggedIn when the probe payload is
undecodable (the raw result's subscripting TypeError is caught), while a
decoded payload lacking the version field escapes with a KeyError instead. -/
theorem tokenlogin_probe_failures
    (env : Env) (s : Session) (host apitoken : String) (verify : Bool)
    (cert : Option String) (timeout : Nat) (vdom : Option String)
    (hlic : s.license ≠ some "Invalid") :
    getKey (tokenloginPre s host apitoken verify cert timeout).headers
        "Authorization" = some ("Bearer " ++ apitoken)
    ∧ (tokenloginPre s host apitoken verify cert timeout).logged = true
    ∧ (env.getResp
        (cmdb_url_str (tokenloginPre s host apitoken verify cert timeout)
          "system" "status" vdom none) .none_ = none →
      (tokenlogin env s host apitoken verify cert timeout vdom).2
        = .error .notLogged)
    ∧ (∀ r, env.getResp
        (cmdb_url_str (tokenloginPre s host apitoken verify cert timeout)
          "system" "status" vdom none) .none_ = some r →
      getKey r.extra "version" = none →
      (tokenlogin env s host apitoken verify cert timeout vdom).2
        = .error .keyErrorE) := by
  have hcs : check_session (tokenloginPre s host apitoken verify cert timeout)
      = .ok () := by
    apply check_session_ok
    · rfl
    · show s.license ≠ some "Invalid"
      exact hlic
  have hlic2 : (tokenloginPre s host apitoken verify cert timeout).license
      ≠ some "Invalid" := hlic
  refine ⟨getKey_setKey_self _ _ _, rfl, ?_, ?_⟩
  · intro hraw
    unfold tokenlogin
    dsimp only []
    have hget : get (tokenloginPre s host apitoken verify cert timeout) env
        "system" "status" vdom none .none_ = .ok .raw := by
      simp [get, cmdb_url, hcs, formatresponse, hraw, hlic2,
        except_bind_error, except_bind_ok]
    rw [hget]
  · intro r hr hver
    unfold tokenlogin
    dsimp only []
    have hget : get (tokenloginPre s host apitoken verify cert timeout) env
        "system" "status" vdom none .none_
        = .ok (.decoded (tagVdom vdom r)) := by
      simp [get, cmdb_url, hcs, formatresponse, hr, hlic2,
        except_bind_error, except_bind_ok]
    have hver2 : getKey (tagVdom vdom r).extra "version" = none := by
      unfold tagVdom
      by_cases hg : vdom = some "global"
      · simp only [hg, if_true]
        rw [getKey_setKey_other _ _ _ _ (by decide)]
        exact hver
      · simp only [hg, if_false]
        exact hver
    rw [hget]
    dsimp only []
    rw [hver2]

/-- Closed instance of the amended C6 theorem: header and flag installed;
an undecodable probe yields NotLoggedIn; a decoded version-less probe
yields the KeyError. -/
theorem tokenlogin_probe_failures_witness :
    getKey (tokenloginPre initSession "fgt" "tok" true none 12).headers
        "Authorization" = some ("Bearer " ++ "tok")
    ∧ (tokenloginPre initSession "fgt" "tok" true none 12).logged = true
    ∧ (envRawBody.getResp
        (cmdb_url_str (tokenloginPre initSession "fgt" "tok" true none 12)
          "system" "status" none none) .none_ = none →
      (tokenlogin envRawBody initSession "fgt" "tok" true none 12 none).2
        = .error .notLogged)
    ∧ (∀ r, envRawBody.getResp
        (cmdb_url_str (tokenloginPre initSession "fgt" "tok" true none 12)
          "system" "status" none none) .none_ = some r →
      getKey r.extra "version" = none →
      (tokenlogin envRawBody initSession "fgt" "tok" true none 12 none).2
        = .error .keyErrorE) :=
  tokenlogin_probe_failures envRawBody initSession "fgt" "tok" true none 12
    none (by simp [initSession])

theorem resolve_mkey_arg_idem
    (s : Session) (env : Env) (path name : String) (data : Val)
    (mkey : Option Val) (vdom : Option String) (mk : Option Val)
    (hmk : resolve_mkey_arg s env path name data mkey vdom = .ok mk) :
    resolve_mkey_arg s env path name data mk vdom = .ok mk := by
  unfold resolve_mkey_arg at hmk ⊢
  cases htr : truthyVal mkey with
  | some m =>
      rw [htr] at hmk
      have hm : mk = some m := (Except.ok.inj hmk).symm
      obtain ⟨-, htruthy⟩ := truthyVal_eq_some htr
      rw [hm]
      simp [truthyVal, htruthy]
  | none =>
      rw [htr] at hmk
      cases htm : truthyVal mk with
      | some m2 =>
          obtain ⟨hmk2, -⟩ := truthyVal_eq_some htm
          rw [hmk2]
      | none => exact hmk

/-- C1: the set orchestrator resolves the identity key with an explicit
truthy argument winning over schema/payload lookup, attempts the module's
update (PUT against the item path at the resolved key), and when the
normalized update result's http_status is 404, 405 or 500 it retries as the
module's create (POST) with the same resolved identity and payload,
returning the create result; for any other status it returns the update
result unchanged. -/
theorem set_update_create_fallback
    (s : Session) (env : Env) (path name : String) (data : Val)
    (mkey : Option Val) (vdom : Option String) (params : ReqParams)
    (mk : Option Val) (r : Resp)
    (hlog : s.logged = true) (hlic : s.license ≠ some "Invalid")
    (hmk : resolve_mkey_arg s env path name data mkey vdom = .ok mk)
    (hput : env.putResp (cmdb_url_str s path name vdom mk) params data
      = some r) :
    set s env path name data mkey vdom params
      = (if r.http_status = 404 ∨ r.http_status = 405 ∨ r.http_status = 500
         then post s env path name data vdom mk .none_
         else put s env path name vdom mk params data)
    ∧ put s env path name vdom mk params data
        = .ok (.decoded (tagVdom vdom r))
    ∧ (∀ m, truthyVal mkey = some m → mk = some m) := by
  have hcs := check_session_ok hlog hlic
  have hput2 : put s env path name vdom mk params data
      = .ok (.decoded (tagVdom vdom r)) := by
    unfold put
    rw [resolve_mkey_arg_idem s env path name data mkey vdom mk hmk]
    simp [cmdb_url, hcs, formatresponse, hput, hlic, except_bind_error,
      except_bind_ok]
  refine ⟨?_, hput2, ?_⟩
  · unfold set
    rw [hmk]
    rw [except_bind_ok]
    have hurl : cmdb_url s path name vdom mk
        = .ok (cmdb_url_str s path name vdom mk) := by
      simp [cmdb_url, hcs, except_bind_error, except_bind_ok]
    rw [hurl, except_bind_ok, hput]
    have hfmt : formatresponse s.license (some r) vdom
        = .ok (.decoded (tagVdom vdom r)) := by
      simp [formatresponse, hlic]
    rw [hfmt, except_bind_ok]
    by_cases hst : r.http_status = 404 ∨ r.http_status = 405
        ∨ r.http_status = 500
    · have hst2 : (tagVdom vdom r).http_status = 404
          ∨ (tagVdom vdom r).http_status = 405
          ∨ (tagVdom vdom r).http_status = 500 := by
        rw [tagVdom_http_status]; exact hst
      simp only [hst, if_true, hst2, if_true]
      cases hpost : post s env path name data vdom mk .none_ with
      | error e => simp [hpost, except_bind_error]
      | ok res =>
          simp [hpost, except_bind_ok, hlic]
    · have hst2 : ¬((tagVdom vdom r).http_status = 404
          ∨ (tagVdom vdom r).http_status = 405
          ∨ (tagVdom vdom r).http_status = 500) := by
        rw [tagVdom_http_status]; exact hst
      simp only [hst, if_false, hst2, if_false]
      exact hput2.symm
  · intro m htr
    unfold resolve_mkey_arg at hmk
    rw [htr] at hmk
    exact (Except.ok.inj hmk).symm

/-- Closed instance of the C1 theorem: against an appliance whose update
answers 404 and with an explicit mkey, set equals the create retry with the
same resolved identity and payload. -/
theorem set_update_create_fallback_witness :
    set demoSession envPutFails "firewall" "address"
      (Val.dict [("name", Val.str "a1")]) (some (Val.str "a1")) none .none_
      = (if (404 : Int) = 404 ∨ (404 : Int) = 405 ∨ (404 : Int) = 500
         then post demoSession envPutFails "firewall" "address"
           (Val.dict [("name", Val.str "a1")]) none (some (Val.str "a1"))
           .none_
         else put demoSession envPutFails "firewall" "address" none
           (some (Val.str "a1")) .none_ (Val.dict [("name", Val.str "a1")]))
    ∧ put demoSession envPutFails "firewall" "address" none
        (some (Val.str "a1")) .none_ (Val.dict [("name", Val.str "a1")])
        = .ok (.decoded (tagVdom none ⟨404, "error", []⟩))
    ∧ (∀ m, truthyVal (some (Val.str "a1")) = some m
        → some (Val.str "a1") = some m) :=
  set_update_create_fallback demoSession envPutFails "firewall" "address"
    (Val.dict [("name", Val.str "a1")]) (some (Val.str "a1")) none .none_
    (some (Val.str "a1")) ⟨404, "error", []⟩ rfl
    (by simp [demoSession, initSession]) rfl rfl

theorem setOutcome_decoded_of_status (s : Session) (env : Env) (c : SetCall)
    (h : (statusOf s env c).isSome = true) :
    ∃ r, setOutcome s env c = .ok (.decoded r)
      ∧ callOk s env c = (r.status == "success") := by
  unfold statusOf at h
  unfold callOk statusOf
  cases hso : setOutcome s env c with
  | error e => rw [hso] at h; simp at h
  | ok fr =>
      cases fr with
      | raw => rw [hso] at h; simp at h
      | decoded r => exact ⟨r, rfl, rfl⟩

theorem lastOk_append (s : Session) (env : Env) (b : Bool)
    (t1 t2 : List SetCall) :
    lastOk s env b (t1 ++ t2) = lastOk s env (lastOk s env b t1) t2 := by
  induction t1 generalizing b with
  | nil => rfl
  | cons c rest ih => simp [lastOk, ih]

theorem applyTableRows_eq (s : Session) (env : Env)
    (hall : ∀ c, (statusOf s env c).isSome = true)
    (vdom : Option String) (name path : String) :
    ∀ (rows : Fields) (b : Bool),
    applyTableRows s env vdom name path rows b
      = .ok (lastOk s env b (tableRowCalls s env vdom name path rows),
             tableRowCalls s env vdom name path rows) := by
  intro rows
  induction rows with
  | nil => intro b; rfl
  | cons p rest ih =>
      intro b
      obtain ⟨k, node⟩ := p
      obtain ⟨r, hso, hok⟩ := setOutcome_decoded_of_status s env
        ⟨name, path, node, some (Val.str k), vdom⟩ (hall _)
      by_cases hst : r.status = "success"
      · have hcall : callOk s env ⟨name, path, node, some (Val.str k), vdom⟩
            = true := by rw [hok]; simp [hst]
        simp [applyTableRows, tableRowCalls, hso, resStatus, hst, hcall, ih,
          lastOk, except_bind_ok]
      · have hcall : callOk s env ⟨name, path, node, some (Val.str k), vdom⟩
            = false := by rw [hok]; simp [beq_eq_false_iff_ne, hst]
        simp [applyTableRows, tableRowCalls, hso, resStatus, hst, hcall,
          lastOk, except_bind_ok]

theorem applyTablePaths_eq (s : Session) (env : Env)
    (hall : ∀ c, (statusOf s env c).isSome = true)
    (vdom : Option String) (name : String) :
    ∀ (pm : PathMap) (b : Bool),
    applyTablePaths s env vdom name pm b
      = .ok (lastOk s env b
               (pm.flatMap (fun pr => tableRowCalls s env vdom name pr.1 pr.2)),
             pm.flatMap (fun pr => tableRowCalls s env vdom name pr.1 pr.2)) := by
  intro pm
  induction pm with
  | nil => intro b; rfl
  | cons pr rest ih =>
      intro b
      obtain ⟨path, rows⟩ := pr
      simp [applyTablePaths, applyTableRows_eq s env hall, ih, lastOk_append,
        except_bind_ok, List.flatMap_cons]

theorem applyTableTree_eq (s : Session) (env : Env)
    (hall : ∀ c, (statusOf s env c).isSome = true) (vdom : Option String) :
    ∀ (t : Tree) (b : Bool),
    applyTableTree s env vdom t b
      = .ok (lastOk s env b (tableCalls s env vdom t),
             tableCalls s env vdom t) := by
  intro t
  induction t with
  | nil => intro b; rfl
  | cons np rest ih =>
      intro b
      obtain ⟨name, pm⟩ := np
      simp [applyTableTree, tableCalls, applyTablePaths_eq s env hall, ih,
        lastOk_append, except_bind_ok, List.flatMap_cons]

theorem applyScalarPaths_eq (s : Session) (env : Env)
    (hall : ∀ c, (statusOf s env c).isSome = true)
    (vdom : Option String) (name : String) :
    ∀ (pm : PathMap) (b : Bool),
    applyScalarPaths s env vdom name pm b
      = .ok (lastOk s env b (scalarPathCalls s env vdom name pm),
             scalarPathCalls s env vdom name pm) := by
  intro pm
  induction pm with
  | nil => intro b; rfl
  | cons pr rest ih =>
      intro b
      obtain ⟨path, fields⟩ := pr
      by_cases he : fields.isEmpty
      · simp [applyScalarPaths, scalarPathCalls, he, ih]
      · obtain ⟨r, hso, hok⟩ := setOutcome_decoded_of_status s env
          ⟨name, path, Val.dict fields, none, vdom⟩ (hall _)
        by_cases hst : r.status = "success"
        · have hcall : callOk s env ⟨name, path, Val.dict fields, none, vdom⟩
              = true := by rw [hok]; simp [hst]
          simp [applyScalarPaths, scalarPathCalls, he, hso, resStatus, hst,
            hcall, ih, lastOk, except_bind_ok]
        · have hcall : callOk s env ⟨name, path, Val.dict fields, none, vdom⟩
              = false := by rw [hok]; simp [beq_eq_false_iff_ne, hst]
          simp [applyScalarPaths, scalarPathCalls, he, hso, resStatus, hst,
            hcall, lastOk, except_bind_ok]

theorem applyScalarTree_eq (s : Session) (env : Env)
    (hall : ∀ c, (statusOf s env c).isSome = true) (vdom : Option String) :
    ∀ (t : Tree) (b : Bool),
    applyScalarTree s env vdom t b
      = .ok (lastOk s env b (scalarCalls s env vdom t),
             scalarCalls s env vdom t) := by
  intro t
  induction t with
  | nil => intro b; rfl
  | cons np rest ih =>
      intro b
      obtain ⟨name, pm⟩ := np
      simp [applyScalarTree, scalarCalls, applyScalarPaths_eq s env hall, ih,
        lastOk_append, except_bind_ok, List.flatMap_cons]

/-- C3: whenever the splitting phase succeeds and every set invocation
returns a decoded result, the trace of set invocations setoverlayconfig
makes is, per (name, path), the entries up to and including the first
non-success — a failure stops only the remaining entries of the
currently-running inner loop, while every other name and path of both
passes still runs (the per-path traces concatenate independently) — and
the returned boolean is exactly the success of the last invocation
observed (false when none ran), not a guarantee that every entry
succeeded. -/
theorem setoverlayconfig_weak_result
    (s : Session) (env : Env) (t : Tree) (vdom : Option String)
    (tS tT : Tree)
    (hp : partitionTree t = .ok (tS, tT))
    (hall : ∀ c, (statusOf s env c).isSome = true) :
    setoverlayconfig s env t vdom
      = .ok (lastOk s env false
               (scalarCalls s env vdom tS ++ tableCalls s env vdom tT),
             scalarCalls s env vdom tS ++ tableCalls s env vdom tT) := by
  unfold setoverlayconfig
  rw [hp, except_bind_ok]
  simp [applyScalarTree_eq s env hall, applyTableTree_eq s env hall,
    lastOk_append, except_bind_ok]

theorem set_allSuccess (path name : String) (data : Val) (mkey : Option Val)
    (vdom : Option String) :
    set demoSession envAllSuccess path name data mkey vdom .none_
      = .ok (.decoded (tagVdom vdom ⟨200, "success", []⟩)) := by
  have hcs : check_session demoSession = .ok () := rfl
  have hres : ∃ mk, resolve_mkey_arg demoSession envAllSuccess path name data
      mkey vdom = .ok mk := by
    unfold resolve_mkey_arg
    cases htr : truthyVal mkey with
    | some m => exact ⟨some m, rfl⟩
    | none =>
        refine ⟨none, ?_⟩
        unfold get_mkey get_mkeyname schema_url
        cases vdom <;>
          simp [cmdb_url, hcs, envAllSuccess, except_bind_ok,
            except_map_ok, except_bind_error]
  obtain ⟨mk, hres⟩ := hres
  have hlic : demoSession.license ≠ some "Invalid" := by
    simp [demoSession, initSession]
  unfold set
  rw [hres, except_bind_ok]
  simp [cmdb_url, hcs, except_bind_ok, envAllSuccess, formatresponse, hlic,
    tagVdom_http_status]

theorem statusOf_allSuccess (c : SetCall) :
    (statusOf demoSession envAllSuccess c).isSome = true := by
  unfold statusOf setOutcome
  rw [set_allSuccess c.name c.path c.data c.mkey c.vdom]
  rfl

/-- Closed instance of the C3 theorem at a two-pass tree against the
all-success appliance. -/
theorem setoverlayconfig_weak_result_witness :
    setoverlayconfig demoSession envAllSuccess demoTree none
      = .ok (lastOk demoSession envAllSuccess false
               (scalarCalls demoSession envAllSuccess none
                  [("system", [("global", [("hostname", Val.str "fw1")])]),
                   ("firewall", [("policy", [])])]
                ++ tableCalls demoSession envAllSuccess none
                  [("system", []),
                   ("firewall",
                    [("policy",
                      [("1", Val.dict [("srcintf", Val.str "port1")])])])]),
             scalarCalls demoSession envAllSuccess none
                  [("system", [("global", [("hostname", Val.str "fw1")])]),
                   ("firewall", [("policy", [])])]
                ++ tableCalls demoSession envAllSuccess none
                  [("system", []),
                   ("firewall",
                    [("policy",
                      [("1", Val.dict [("srcintf", Val.str "port1")])])])]) :=
  setoverlayconfig_weak_result demoSession envAllSuccess demoTree none
    [("system", [("global", [("hostname", Val.str "fw1")])]),
     ("firewall", [("policy", [])])]
    [("system", []),
     ("firewall",
      [("policy", [("1", Val.dict [("srcintf", Val.str "port1")])])])]
    rfl statusOf_allSuccess

end Fortios
